import Mathlib

/-!
Shallow embedding of the core of `app/services.py` and `app/main.py` of the
ks-api-v1 repository: the count/duration normalizers, the extracted-record to
output-schema mapper `_map_extracted_to_dict`, the synchronous metadata
operation `get_video_metadata`, the background download task
`perform_download`, the task registry `task_statuses` with `get_task_status`,
and the `/download` enqueue endpoint `request_kuaishou_download`.

Python strings are modelled as Lean `String`; the string operations the code
uses (strip, lower, split on a character, substring membership,
replace-with-empty of single characters) are implemented over the underlying
character lists so that their behaviour is fully transparent.

Python floats appear in the count normalizer (`int(float(num_part) *
multiplier)`).  Two models are provided.  `parsePyFloatL` computes the exact
rational value of the decimal numeral, and `parseCountWithUnit` computes the
count from that exact value — an idealization that is exact whenever every
intermediate float is exactly representable.  `parseCountWithUnitFloat`
additionally models full IEEE-754 binary64 semantics: correct rounding of
the parsed numeral and of the product (round to nearest, ties to even),
overflow to infinity, and the uncaught `OverflowError` that `int()` raises
on an infinity (`float("9007199254740993")` rounds to `9007199254740992.0`);
it is the authoritative model of `_parse_count_with_unit` where the two
differ.
-/

namespace KsApi

/-- ASCII whitespace, as stripped by Python's `str.strip()` on the inputs
considered here. -/
def isPySpace (c : Char) : Bool :=
  c == ' ' || c == '\t' || c == '\n' || c == '\r' || c == '\x0b' || c == '\x0c'

/-- `str.strip()` on the character list. -/
def trimL (l : List Char) : List Char :=
  ((l.dropWhile isPySpace).reverse.dropWhile isPySpace).reverse

/-- Python `str.lower()` restricted to ASCII letters (the only characters the
code lowercases that matter here; CJK characters are unaffected in both). -/
def lowerChar (c : Char) : Char :=
  if 'A' ≤ c && c ≤ 'Z' then Char.ofNat (c.toNat + 32) else c

def lowerL (l : List Char) : List Char := l.map lowerChar

/-- Python `sep in s` for single-character `sep`. -/
def containsChar (c : Char) (l : List Char) : Bool := l.any (· == c)

/-- Python `s.replace(c, '')` for a single-character pattern: removes every
occurrence. -/
def removeChar (c : Char) (l : List Char) : List Char := l.filter (· != c)

/-- Python `s.split(c)` for a single-character separator. -/
def splitChar (c : Char) : List Char → List (List Char)
  | [] => [[]]
  | x :: xs =>
    match splitChar c xs with
    | [] => [[]]
    | r :: rs => if x == c then [] :: r :: rs else (x :: r) :: rs

/-- Prefix test on character lists. -/
def startsWithL : List Char → List Char → Bool
  | [], _ => true
  | _ :: _, [] => false
  | a :: as, b :: bs => a == b && startsWithL as bs

/-- Substring membership (`needle in haystack`), Python's `in` on `str`. -/
def containsSubL (needle : List Char) : List Char → Bool
  | [] => startsWithL needle []
  | h :: t => startsWithL needle (h :: t) || containsSubL needle t

/-- Python `needle in hay` on strings. -/
def pyInStr (needle hay : String) : Bool := containsSubL needle.data hay.data

/-- Python `list(map(f, xs))` for a fallible `f`: the whole traversal fails
(raises) as soon as one element fails. -/
def traverseOption {α β : Type} (f : α → Option β) : List α → Option (List β)
  | [] => some []
  | x :: xs =>
    match f x, traverseOption f xs with
    | some y, some ys => some (y :: ys)
    | _, _ => none

def allDigits (l : List Char) : Bool := l.all Char.isDigit

/-- Value of a digit list read in base 10. -/
def digitsVal (l : List Char) : Nat :=
  l.foldl (fun a c => a * 10 + (c.toNat - 48)) 0

/-- Strip one optional leading sign, returning whether it was `-` and the
remaining characters. -/
def stripSign (l : List Char) : Bool × List Char :=
  match l with
  | [] => (false, [])
  | c :: cs =>
    if c == '-' then (true, cs)
    else if c == '+' then (false, cs)
    else (false, c :: cs)

/-- Python `int(s)` on a string: strip, optional sign, at least one digit. -/
def parsePyIntL (l : List Char) : Option Int :=
  let (neg, u) := stripSign (trimL l)
  if u ≠ [] ∧ allDigits u then
    some (if neg then -(digitsVal u : Int) else (digitsVal u : Int))
  else none

def parsePyInt (s : String) : Option Int := parsePyIntL s.data

/-- An exact fraction `num / den` (`den` positive at every construction
site): the exact value of a parsed decimal numeral. -/
structure Frac where
  num : Int
  den : Nat
  deriving DecidableEq, Repr

/-- Mantissa of a decimal numeral: `digits`, `digits.digits`, `digits.`,
`.digits` — at least one digit in total.  The value `i.f` is the exact
fraction `(i * 10^|f| + f) / 10^|f|`. -/
def parseMantissa (l : List Char) : Option Frac :=
  match splitChar '.' l with
  | [i] => if i ≠ [] ∧ allDigits i then some ⟨(digitsVal i : Int), 1⟩ else none
  | [i, f] =>
    if (i ≠ [] ∨ f ≠ []) ∧ allDigits i ∧ allDigits f then
      some ⟨((digitsVal i * 10 ^ f.length + digitsVal f : Nat) : Int), 10 ^ f.length⟩
    else none
  | _ => none

/-- Optionally signed decimal integer (for the exponent part). -/
def parseSignedDigits (l : List Char) : Option Int :=
  let (neg, u) := stripSign l
  if u ≠ [] ∧ allDigits u then
    some (if neg then -(digitsVal u : Int) else (digitsVal u : Int))
  else none

/-- Scale a fraction by `10 ^ ev` for an integer exponent `ev`. -/
def Frac.scalePow10 (f : Frac) (ev : Int) : Frac :=
  if 0 ≤ ev then ⟨f.num * (10 : Int) ^ ev.toNat, f.den⟩
  else ⟨f.num, f.den * 10 ^ (-ev).toNat⟩

/-- The exact rational value of a plain decimal numeral accepted by Python's
`float()`: strip, optional sign, mantissa, optional `e`-exponent; `none`
models the raised `ValueError`.  (`inf`, `nan` and digit-group underscores
are outside every input this development considers.)  Python's `float()`
returns this value correctly rounded to binary64 — `roundDouble` below. -/
def parsePyFloatL (l : List Char) : Option Frac :=
  let (neg, u) := stripSign (trimL l)
  let low := lowerL u
  let value : Option Frac :=
    match splitChar 'e' low with
    | [m] => parseMantissa m
    | [m, e] => do
      let mv ← parseMantissa m
      let ev ← parseSignedDigits e
      pure (mv.scalePow10 ev)
    | _ => none
  value.map (fun f => if neg then ⟨-f.num, f.den⟩ else f)

def parsePyFloat (s : String) : Option Frac := parsePyFloatL s.data

/-- Truncation toward zero of the exact product `f * m` (`Int.tdiv` rounds
toward zero, and every constructed denominator is positive): the idealized,
infinitely-precise counterpart of the source's `int(num * multiplier)`.  The
binary64-precise counterpart, with rounding at each step and overflow, is
`parseCountWithUnitFloat` below. -/
def truncMul (f : Frac) (m : Int) : Int := (f.num * m).tdiv f.den

/-- Dynamically-typed Python values, as they occur in the loosely-typed
`extracted_info` dictionary and in the mapped output dictionary. -/
inductive PyVal where
  | vnone : PyVal
  | vbool (b : Bool) : PyVal
  | vint (n : Int) : PyVal
  | vstr (s : String) : PyVal
  | vlist (xs : List PyVal) : PyVal
  | vdict (kvs : List (String × PyVal)) : PyVal

namespace PyVal

/-- Python truthiness of a value. -/
def truthy : PyVal → Bool
  | vnone => false
  | vbool b => b
  | vint n => n != 0
  | vstr s => !s.data.isEmpty
  | vlist xs => !xs.isEmpty
  | vdict kvs => !kvs.isEmpty

/-- Python `v == s` for a string literal `s`. -/
def eqStr (v : PyVal) (s : String) : Bool :=
  match v with
  | vstr t => t == s
  | _ => false

/-- Python `x[0]`: defined for nonempty sequences (lists and strings); `none`
models the raised `IndexError`/`TypeError` otherwise. -/
def index0 : PyVal → Option PyVal
  | vlist (x :: _) => some x
  | vstr s =>
    match s.data with
    | c :: _ => some (vstr (String.mk [c]))
    | [] => none
  | _ => none

end PyVal

/-- A Python `dict` with string keys, as an association list (keys unique by
construction in the source; lookup takes the first match). -/
abbrev PyDict := List (String × PyVal)

/-- Python `d.get(k, default)`. -/
def pyGet (d : PyDict) (k : String) (default : PyVal) : PyVal :=
  match d.find? (fun kv => kv.1 == k) with
  | some kv => kv.2
  | none => default

/-- Key lookup inside a `.vdict` value (`none` when the key is absent or the
value is not a dict): the observation "field `k` is present in the output
shape with this value". -/
def dictGet? (v : PyVal) (k : String) : Option PyVal :=
  match v with
  | .vdict kvs => (kvs.find? (fun kv => kv.1 == k)).map (fun kv => kv.2)
  | _ => none

/-- Field `k` of the `media` sub-record of a mapped output. -/
def mediaField (out : PyVal) (k : String) : Option PyVal :=
  (dictGet? out "media").bind (fun m => dictGet? m k)

/-- `_parse_duration` of `app/services.py` (lines 342–357): an `int` is
milliseconds, floor-divided by 1000 when positive and clamped to 0 otherwise
(Python `bool` is an `int` with value 0 or 1, so both booleans yield 0); a
string containing `:` is split on `:` and its 2 or 3 integer components are
read as {minutes,seconds} or {hours,minutes,seconds}; everything else is
`None`.  The `len(parts) == 1` branch of the source is unreachable: splitting
a string that contains `:` always yields at least two parts. -/
def parseDuration (v : PyVal) : Option Int :=
  match v with
  | .vint n => some (if n > 0 then n / 1000 else 0)
  | .vbool b => some (if (if b then (1 : Int) else 0) > 0 then (if b then (1 : Int) else 0) / 1000 else 0)
  | .vstr s =>
    if containsChar ':' s.data then
      match traverseOption parsePyIntL (splitChar ':' s.data) with
      | some [h, m, sec] => some (h * 3600 + m * 60 + sec)
      | some [m, sec] => some (m * 60 + sec)
      | some [x] => some x
      | some _ => none
      | none => none
    else none
  | _ => none

/-- `_parse_count_with_unit` of `app/services.py` (lines 360–383): an `int`
passes through when non-negative and is `None` when negative (a Python `bool`
is an `int` valued 0 or 1); a non-string non-int is `None`; a string is
stripped and lowercased, then if it contains `万` or `w` all occurrences of
both are removed and the multiplier is 10000, otherwise if it contains `亿` or
`b` all occurrences of both are removed and the multiplier is 100000000; the
remaining numeral is parsed as a float, multiplied and truncated to an
integer, with `None` on a parse failure. -/
def parseCountWithUnit (v : PyVal) : Option Int :=
  match v with
  | .vint n => if n ≥ 0 then some n else none
  | .vbool b => some (if b then 1 else 0)
  | .vstr s₀ =>
    let s := lowerL (trimL s₀.data)
    let (numPart, multiplier) : List Char × Int :=
      if containsChar '万' s || containsChar 'w' s then
        (trimL (removeChar 'w' (removeChar '万' s)), 10000)
      else if containsChar '亿' s || containsChar 'b' s then
        (trimL (removeChar 'b' (removeChar '亿' s)), 100000000)
      else (s, 1)
    match parsePyFloatL numPart with
    | some q => some (truncMul q multiplier)
    | none => none
  | _ => none

/-! ### IEEE-754 binary64 layer

The source computes `int(float(num_part) * multiplier)` in binary64
arithmetic.  `float()` of a decimal numeral is the numeral's exact value
(`parsePyFloatL`) correctly rounded to the nearest binary64 value (ties to
even), overflowing to infinity; the multiplication is again correctly
rounded; and `int()` truncates a finite float toward zero but raises
`OverflowError` — uncaught by the `except (ValueError, TypeError)` — on an
infinity.  A binary64 value is represented here by its exact rational value
(`Frac`), which determines it uniquely; rounding a positive rational `q`
with `E = ⌊log₂ q⌋` means rounding to the nearest multiple of
`2 ^ max (E - 52) (-1074)`, which handles normal and subnormal values
uniformly, with results of magnitude `≥ 2^1024` overflowing. -/

/-- Number of binary digits of `n` (0 for 0), with explicit fuel so that the
kernel can evaluate it. -/
def bitlenFuel : Nat → Nat → Nat
  | 0, _ => 0
  | f + 1, n => if n = 0 then 0 else bitlenFuel f (n / 2) + 1

def bitlen (n : Nat) : Nat := bitlenFuel n n

/-- The value of a Python float reachable from numeral parsing: a finite
value (its exact rational), or an infinity. -/
inductive FpVal where
  | finite (f : Frac) : FpVal
  | posInf : FpVal
  | negInf : FpVal
  deriving DecidableEq, Repr

/-- `⌊log₂ (n / d)⌋` for `n, d ≥ 1`. -/
def ratLog2 (n d : Nat) : Int :=
  let e0 : Int := (bitlen n : Int) - (bitlen d : Int)
  if 0 ≤ e0 then
    if d * 2 ^ e0.toNat ≤ n then e0 else e0 - 1
  else
    if d ≤ n * 2 ^ (-e0).toNat then e0 else e0 - 1

/-- Round the positive rational `n / d` to the nearest binary64 value (ties
to even), returned as `(k, ulpExp)` with value `k * 2 ^ ulpExp`:  the
scaled significand `(n / d) * 2 ^ (-ulpExp)` is rounded to the nearest
integer, halves to even.  (`Int.toNat` of a negative exponent is 0, so `sn`
and `sd` pick up exactly the non-negative shift.) -/
def roundPosMagnitude (n d : Nat) : Nat × Int :=
  let E := ratLog2 n d
  let ulpExp : Int := max (E - 52) (-1074)
  let sn := n * 2 ^ (-ulpExp).toNat
  let sd := d * 2 ^ ulpExp.toNat
  let p := sn / sd
  let r2 := 2 * (sn % sd)
  let k :=
    if r2 < sd then p
    else if sd < r2 then p + 1
    else if p % 2 = 0 then p else p + 1
  (k, ulpExp)

/-- The exact value `±(k * 2 ^ e)` as a reduced fraction. -/
def pow2Frac (k : Nat) (e : Int) (negSign : Bool) : Frac :=
  if 0 ≤ e then
    ⟨if negSign then -((k * 2 ^ e.toNat : Nat) : Int) else ((k * 2 ^ e.toNat : Nat) : Int), 1⟩
  else
    let den := 2 ^ (-e).toNat
    let g := Nat.gcd k den
    ⟨if negSign then -((k / g : Nat) : Int) else ((k / g : Nat) : Int), den / g⟩

/-- Correct rounding of an exact rational to binary64 (round to nearest,
ties to even; overflow to the like-signed infinity). -/
def roundDouble (q : Frac) : FpVal :=
  if q.num = 0 then .finite ⟨0, 1⟩
  else
    let nd := roundPosMagnitude q.num.natAbs q.den
    let k := nd.1
    let ulpExp := nd.2
    if 0 ≤ ulpExp ∧ 2 ^ 1024 ≤ k * 2 ^ ulpExp.toNat then
      if q.num < 0 then .negInf else .posInf
    else .finite (pow2Frac k ulpExp (decide (q.num < 0)))

/-- Binary64 multiplication of a float by the positive integer multiplier of
the source (1, 10⁴ or 10⁸): the exact product, correctly rounded. -/
def fpMulPos (f : FpVal) (m : Nat) : FpVal :=
  match f with
  | .finite q => roundDouble ⟨q.num * (m : Int), q.den⟩
  | .posInf => .posInf
  | .negInf => .negInf

/-- Outcome of `_parse_count_with_unit` in the binary64-precise model: an
integer return value, a `None` return (the caught `ValueError`/`TypeError`),
or an uncaught `OverflowError` raised by `int()` on an infinite float. -/
inductive CountOutcome where
  | val (n : Int) : CountOutcome
  | retNone : CountOutcome
  | overflowError : CountOutcome
  deriving DecidableEq, Repr

/-- `_parse_count_with_unit` of `app/services.py` (lines 360–383) with
`float()` and the multiplication modelled at full IEEE-754 binary64
precision: the numeral's exact value is rounded to a double, multiplied by
the unit multiplier with another rounding, and truncated toward zero by
`int()`; an infinite intermediate makes `int()` raise `OverflowError`, which
the `except (ValueError, TypeError)` does not catch.  `parseCountWithUnit`
above is the idealized exact-value variant; the two agree whenever every
intermediate float is exactly representable, and this definition is the
authoritative one where they differ (e.g. `"9007199254740993"`). -/
def parseCountWithUnitFloat (v : PyVal) : CountOutcome :=
  match v with
  | .vint n => if n ≥ 0 then .val n else .retNone
  | .vbool b => .val (if b then 1 else 0)
  | .vstr s₀ =>
    let s := lowerL (trimL s₀.data)
    let (numPart, multiplier) : List Char × Nat :=
      if containsChar '万' s || containsChar 'w' s then
        (trimL (removeChar 'w' (removeChar '万' s)), 10000)
      else if containsChar '亿' s || containsChar 'b' s then
        (trimL (removeChar 'b' (removeChar '亿' s)), 100000000)
      else (s, 1)
    match parsePyFloatL numPart with
    | none => .retNone
    | some q =>
      match fpMulPos (roundDouble q) multiplier with
      | .finite p => .val (p.num.tdiv p.den)
      | _ => .overflowError
  | _ => .retNone

/-- `_map_extracted_to_dict` of `app/services.py` (lines 272–339).  An empty
`extracted_info` maps to the empty dict.  Otherwise the content type is
inferred: `photoType == "图片"` with a truthy `download` value populates
`image_urls` with that value, `photoType == "视频"` with a truthy `download`
value populates `video_url` with `download[0]`, and every other combination
leaves both empty.  The result is `none` exactly when Python would raise on
`downloads[0]` (a truthy non-indexable `download` value in the `视频`
branch); on every extractor-shaped input the result is `some` of the full
output dictionary. -/
def mapExtractedToDict (info : PyDict) (originalUrl : String) : Option PyVal :=
  if info.isEmpty then some (.vdict [])
  else
    let downloads := pyGet info "download" (.vlist [])
    let photoType := pyGet info "photoType" .vnone
    let inferred : Option (String × PyVal × PyVal) :=
      if photoType.eqStr "图片" && downloads.truthy then
        some ("image", .vstr "", downloads)
      else if photoType.eqStr "视频" && downloads.truthy then
        match downloads.index0 with
        | some v => some ("video", v, .vlist [])
        | none => none
      else some ("video", .vstr "", .vlist [])
    inferred.map fun (mediaType, videoUrl, imageUrls) =>
      let width := pyGet info "width" .vnone
      let height := pyGet info "height" .vnone
      .vdict
        [("platform", .vstr "kuaishou"),
         ("video_id", pyGet info "detailID" (.vstr "")),
         ("original_url", .vstr originalUrl),
         ("title", pyGet info "caption" (.vstr "")),
         ("description", pyGet info "caption" (.vstr "")),
         ("content", .vstr ""),
         ("tags", .vlist []),
         ("type", .vstr mediaType),
         ("author", .vdict
           [("id", pyGet info "authorID" (.vstr "")),
            ("sec_uid", .vstr ""),
            ("nickname", pyGet info "name" (.vstr "")),
            ("avatar", .vstr ""),
            ("signature", .vstr ""),
            ("verified", .vbool false),
            ("follower_count", .vint 0),
            ("following_count", .vint 0),
            ("region", .vstr "")]),
         ("statistics", .vdict
           [("like_count", .vint ((parseCountWithUnit (pyGet info "realLikeCount" .vnone)).getD 0)),
            ("comment_count", .vint ((parseCountWithUnit (pyGet info "commentCount" .vnone)).getD 0)),
            ("share_count", .vint ((parseCountWithUnit (pyGet info "shareCount" .vnone)).getD 0)),
            ("collect_count", .vint 0),
            ("play_count", .vint ((parseCountWithUnit (pyGet info "viewCount" .vnone)).getD 0))]),
         ("media", .vdict
           [("cover_url", pyGet info "coverUrl" (.vstr "")),
            ("video_url", videoUrl),
            ("image_urls", imageUrls),
            ("duration", .vint ((parseDuration (pyGet info "duration" .vnone)).getD 0)),
            ("width", if width.truthy then width else .vint 0),
            ("height", if height.truthy then height else .vint 0),
            ("quality", .vnone)]),
         ("publish_time", pyGet info "timestamp" .vnone),
         ("update_time", .vnone)]

/-- One entry of the `task_statuses` dictionary (the `not_found` synthetic
record of `get_task_status` carries no `result_path` key in the source; it is
modelled as `result_path = none`). -/
structure TaskRecord where
  status : String
  message : String
  result_path : Option String
  deriving DecidableEq, Repr

/-- The in-memory `task_statuses` mapping, keyed by task id. -/
abbrev Registry := List (String × TaskRecord)

/-- Python dict assignment `task_statuses[task_id] = r`: overwrite in place if
present, insert otherwise. -/
def setTask (reg : Registry) (id : String) (r : TaskRecord) : Registry :=
  if reg.any (fun kv => kv.1 == id) then
    reg.map (fun kv => if kv.1 == id then (id, r) else kv)
  else reg ++ [(id, r)]

def lookupTask (reg : Registry) (id : String) : Option TaskRecord :=
  (reg.find? (fun kv => kv.1 == id)).map (fun kv => kv.2)

/-- `get_task_status` of `app/services.py` (lines 266–268):
`task_statuses.get(task_id, {"status": "not_found", "message": "任务 ID 不存在"})`. -/
def getTaskStatus (reg : Registry) (id : String) : TaskRecord :=
  (lookupTask reg id).getD ⟨"not_found", "任务 ID 不存在", none⟩

/-- The `/download` response model (`DownloadApiResponse` of `app/main.py`,
field defaults `status="queued"`, `message="下载任务已加入后台队列"`). -/
structure DownloadApiResponse where
  status : String
  message : String
  task_id : String
  deriving DecidableEq, Repr

/-- `request_kuaishou_download` of `app/main.py` (lines 198–214): generates a
task id, schedules `perform_download` as a background task and returns the
202 response immediately.  The handler itself performs no write to
`task_statuses`, so the registry is returned unchanged; the scheduled
background work is modelled separately by `performDownload`. -/
def requestKuaishouDownload (reg : Registry) (taskId _url : String) :
    DownloadApiResponse × Registry :=
  (⟨"queued", "下载任务已加入后台队列", taskId⟩, reg)

/-- Outcome of each externally-effectful step of the download pipeline: the
value it returns, or the message of the exception it raises. -/
structure DownloadEnv where
  examinerRun : Except String (List String)
  extractParams : Except String (String × String × String)
  detailPageRun : Except String String
  htmlExtractorRun : Except String PyDict
  downloaderStep : Except String String

/-- The `try`-block body of `perform_download` (lines 210–252): resolve,
extract params, fetch, extract, then the (simulated) download producing the
final path; each falsy intermediate result raises the `ValueError` with the
message the source gives it. -/
def downloadPipeline (env : DownloadEnv) : Except String String := do
  let resolved ← env.examinerRun
  if resolved.isEmpty then throw "无法提取有效链接"
  let (_web, _userId, detailId) ← env.extractParams
  if detailId.data.isEmpty then throw "无法解析作品 ID"
  let html ← env.detailPageRun
  if html.data.isEmpty then throw "获取 HTML 失败"
  let info ← env.htmlExtractorRun
  if info.isEmpty then throw "提取信息失败"
  env.downloaderStep

/-- The first statement of `perform_download` (line 204): the task's registry
entry is created/overwritten with status `processing`. -/
def performDownloadStart (reg : Registry) (taskId : String) : Registry :=
  setTask reg taskId ⟨"processing", "初始化下载...", none⟩

/-- `perform_download` of `app/services.py` (lines 201–264): writes the
`processing` entry, runs the pipeline, and on success writes `completed` with
the result path while the top-level `except Exception` turns every raised
error into a `failed` entry (with a Cookie-flavored message when the error
message mentions `Cookie` or `登录`) whose `result_path` is `None`.  The
intermediate message-only update (`"开始下载文件..."`) is elided: it leaves
the status `processing` and is overwritten before the function returns. -/
def performDownload (reg : Registry) (taskId : String) (env : DownloadEnv) :
    Registry :=
  let reg1 := performDownloadStart reg taskId
  match downloadPipeline env with
  | .ok path => setTask reg1 taskId ⟨"completed", "下载成功 (模拟)", some path⟩
  | .error msg =>
    if pyInStr "Cookie" msg || pyInStr "登录" msg then
      setTask reg1 taskId ⟨"failed", "下载失败，可能需要有效 Cookie: " ++ msg, none⟩
    else
      setTask reg1 taskId ⟨"failed", msg, none⟩

/-- Exceptions the library components called by `get_video_metadata` can
raise: `ValueError` (caught at the 400 branch) or any other exception (caught
at the generic branch).  FastAPI's `HTTPException` is raised only by
`get_video_metadata` itself, never by the downloader-library components. -/
inductive StepExn where
  | valueError (msg : String)
  | other (msg : String)
  deriving DecidableEq, Repr

/-- Exceptions as seen by the handlers of `get_video_metadata`. -/
inductive PyExn where
  | valueError (msg : String)
  | httpExc (code : Int) (detail : String)
  | other (msg : String)
  deriving DecidableEq, Repr

def liftStep {α : Type} : Except StepExn α → Except PyExn α
  | .ok a => .ok a
  | .error (.valueError m) => .error (.valueError m)
  | .error (.other m) => .error (.other m)

/-- Outcome of each externally-effectful step of the metadata pipeline. -/
structure MetaEnv where
  examinerRun : Except StepExn (List String)
  extractParams : Except StepExn (String × String × String)
  detailPageRun : Except StepExn String
  htmlExtractorRun : Except StepExn PyDict

/-- `get_video_metadata` of `app/services.py` (lines 151–196): the pipeline
body raises `ValueError` on falsy resolution/id/extraction results and
`HTTPException(503)` on falsy page content; the surrounding handlers map
`ValueError` to a 400 response, re-raise `HTTPException`, and map any other
exception to 401 when its message mentions `Cookie` or `登录` and to 500
otherwise.  The error result is the `(status_code, detail)` pair of the
raised `HTTPException`. -/
def getVideoMetadataBody (env : MetaEnv) (url : String) : Except PyExn PyVal :=
  match liftStep env.examinerRun with
  | .error e => .error e
  | .ok resolved =>
    if resolved.isEmpty then .error (.valueError "无法提取有效的快手作品链接")
    else
      match liftStep env.extractParams with
      | .error e => .error e
      | .ok (_web, _userId, detailId) =>
        if detailId.data.isEmpty then .error (.valueError "无法解析出作品 ID")
        else
          match liftStep env.detailPageRun with
          | .error e => .error e
          | .ok html =>
            if html.data.isEmpty then
              .error (.httpExc 503 "获取快手页面内容失败，请检查网络或 Cookie")
            else
              match liftStep env.htmlExtractorRun with
              | .error e => .error e
              | .ok info =>
                if info.isEmpty then .error (.valueError "从 HTML 中提取视频信息失败")
                else
                  match mapExtractedToDict info url with
                  | some d => .ok d
                  | none => .error (.other "object is not subscriptable")

/-- The exception handlers of `get_video_metadata`: `ValueError` becomes a
400 response, `HTTPException` is re-raised as is, and any other exception
becomes 401 when its message mentions `Cookie` or `登录` and 500 otherwise;
the error result is the `(status_code, detail)` pair of the raised
`HTTPException`. -/
def getVideoMetadata (env : MetaEnv) (url : String) : Except (Int × String) PyVal :=
  match getVideoMetadataBody env url with
  | .ok d => .ok d
  | .error (.valueError _) =>
    .error (400, "处理输入链接或解析数据时发生值错误，请检查链接格式或内容。")
  | .error (.httpExc c d) => .error (c, d)
  | .error (.other msg) =>
    if pyInStr "Cookie" msg || pyInStr "登录" msg then
      .error (401, "提取失败，可能需要有效 Cookie: " ++ msg)
    else
      .error (500, "提取元数据时发生内部错误: " ++ msg)

/-! ### Supporting lemmas -/

theorem digit_char_ne {c d : Char} (h : c.isDigit = true) (hd : d.isDigit = false) :
    (c == d) = false := by
  cases hbeq : c == d
  · rfl
  · exact absurd h (by rw [eq_of_beq hbeq]; simp [hd])

theorem isPySpace_digit {c : Char} (h : c.isDigit = true) : isPySpace c = false := by
  unfold isPySpace
  rw [digit_char_ne h (by decide), digit_char_ne h (by decide),
    digit_char_ne h (by decide), digit_char_ne h (by decide),
    digit_char_ne h (by decide), digit_char_ne h (by decide)]
  rfl

theorem dropWhile_eq_self_of_head {p : Char → Bool} {l : List Char}
    (h : ∀ c ∈ l, p c = false) : l.dropWhile p = l := by
  cases l with
  | nil => rfl
  | cons a t => simp [List.dropWhile_cons, h a (by simp)]

theorem trimL_allDigits {l : List Char} (h : allDigits l = true) : trimL l = l := by
  unfold trimL
  have hd : ∀ c ∈ l, isPySpace c = false := fun c hc =>
    isPySpace_digit (by exact List.all_eq_true.mp h c hc)
  rw [dropWhile_eq_self_of_head hd,
    dropWhile_eq_self_of_head (fun c hc => hd c (List.mem_reverse.mp hc)),
    List.reverse_reverse]

theorem lowerChar_digit {c : Char} (h : c.isDigit = true) : lowerChar c = c := by
  unfold lowerChar
  have h57 : c.val ≤ 57 := by
    have := (Bool.and_eq_true _ _).mp ((by simpa [Char.isDigit] using h : (c.val ≥ 48 && c.val ≤ 57) = true))
    simpa using this.2
  have : ¬('A' ≤ c) := by
    intro hA
    have h65 : (65 : UInt32) ≤ c.val := hA
    rw [UInt32.le_def, BitVec.le_def] at h57 h65
    simp at h57 h65
    omega
  simp [this]

theorem lowerL_allDigits {l : List Char} (h : allDigits l = true) : lowerL l = l := by
  induction l with
  | nil => rfl
  | cons a t ih =>
    have ha : a.isDigit = true := List.all_eq_true.mp h a (by simp)
    have ht : allDigits t = true := by
      unfold allDigits at h ⊢
      rw [List.all_eq_true] at h ⊢
      exact fun c hc => h c (by simp [hc])
    simp only [lowerL, List.map_cons]
    rw [lowerChar_digit ha]
    exact congrArg _ (ih ht)

theorem containsChar_eq_false_of_digits {c : Char} {l : List Char}
    (h : allDigits l = true) (hc : c.isDigit = false) : containsChar c l = false := by
  unfold containsChar
  rw [List.any_eq_false]
  intro x hx
  simp [digit_char_ne (List.all_eq_true.mp h x hx) hc]

theorem splitChar_eq_self {c : Char} {l : List Char} (h : containsChar c l = false) :
    splitChar c l = [l] := by
  induction l with
  | nil => rfl
  | cons x xs ih =>
    have hx : (x == c) = false := by
      have := (List.any_eq_false.mp h) x (by simp)
      simpa using this
    have hxs : containsChar c xs = false := by
      unfold containsChar at h ⊢
      rw [List.any_eq_false] at h ⊢
      exact fun y hy => h y (by simp [hy])
    unfold splitChar
    rw [ih hxs, hx]
    simp

theorem find?_map_set (reg : Registry) (id : String) (r : TaskRecord)
    (h : reg.any (fun kv => kv.1 == id) = true) :
    (reg.map (fun kv => if kv.1 == id then (id, r) else kv)).find?
      (fun kv => kv.1 == id) = some (id, r) := by
  induction reg with
  | nil => simp at h
  | cons kv rest ih =>
    by_cases hkv : (kv.1 == id) = true
    · have hk : kv.1 = id := eq_of_beq hkv
      simp [List.find?_cons, hk]
    · have hkv' : (kv.1 == id) = false := by simpa using hkv
      have hrest : rest.any (fun kv => kv.1 == id) = true := by
        rw [List.any_cons, hkv'] at h
        simpa using h
      rw [List.map_cons, if_neg hkv, List.find?_cons_of_neg _ (by simp [hkv'])]
      exact ih hrest

theorem lookupTask_setTask_self (reg : Registry) (id : String) (r : TaskRecord) :
    lookupTask (setTask reg id r) id = some r := by
  unfold setTask lookupTask
  cases hb : reg.any (fun kv => kv.1 == id) with
  | true =>
    rw [if_pos rfl, find?_map_set reg id r hb]
    rfl
  | false =>
    rw [if_neg (by simp), List.find?_append]
    have hnone : reg.find? (fun kv => kv.1 == id) = none := by
      rw [List.find?_eq_none]
      intro x hx
      exact List.any_eq_false.mp hb x hx
    simp [hnone, List.find?_cons]

/-! ### Claim theorems -/

/-- C5: for every task identifier not present in the registry, the status
lookup does not fail: it returns the synthetic record with status
`not_found` (and the fixed message) rather than raising. -/
theorem C5_unknown_task_lookup_not_found (reg : Registry) (id : String)
    (h : lookupTask reg id = none) :
    getTaskStatus reg id = ⟨"not_found", "任务 ID 不存在", none⟩ := by
  unfold getTaskStatus
  rw [h]
  rfl

/-- Witness for C5 at the empty registry and the identifier
`"nonexistent-id"`. -/
theorem C5_unknown_task_lookup_not_found_witness :
    getTaskStatus [] "nonexistent-id" = ⟨"not_found", "任务 ID 不存在", none⟩ :=
  C5_unknown_task_lookup_not_found [] "nonexistent-id" rfl

/-- C2 counterexample: the enqueue handler performs no registry write, so a
freshly enqueued task that has not yet started is observed as `not_found`
(neither `queued` nor `processing`), and the first registry write made on the
task's behalf creates the entry directly in the `processing` state, never in
`queued`. -/
theorem C2_counterexample :
    (requestKuaishouDownload [] "t1" "u").2 = ([] : Registry) ∧
    (getTaskStatus (requestKuaishouDownload [] "t1" "u").2 "t1").status = "not_found" ∧
    (getTaskStatus (performDownloadStart [] "t1") "t1").status = "processing" := by
  exact ⟨rfl, rfl, rfl⟩

/-- C2 as amended: enqueuing leaves the registry unchanged (the `queued`
status appears only in the HTTP response, so lookup of a fresh task id reads
`not_found` until the background task starts); the background task's first
action creates the entry directly in the `processing` state; and after the
background task finishes, the entry's status is `completed` or `failed`. -/
theorem C2_task_lifecycle (reg : Registry) (taskId url : String) (env : DownloadEnv) :
    (requestKuaishouDownload reg taskId url).2 = reg ∧
    (requestKuaishouDownload reg taskId url).1.status = "queued" ∧
    (getTaskStatus (performDownloadStart reg taskId) taskId).status = "processing" ∧
    ((getTaskStatus (performDownload reg taskId env) taskId).status = "completed" ∨
      (getTaskStatus (performDownload reg taskId env) taskId).status = "failed") := by
  refine ⟨rfl, rfl, ?_, ?_⟩
  · unfold getTaskStatus performDownloadStart
    rw [lookupTask_setTask_self]
    rfl
  · unfold performDownload
    cases hp : downloadPipeline env with
    | ok path =>
      left
      unfold getTaskStatus
      rw [lookupTask_setTask_self]
      rfl
    | error msg =>
      right
      unfold getTaskStatus
      dsimp only
      by_cases hc : (pyInStr "Cookie" msg || pyInStr "登录" msg) = true
      · rw [if_pos hc, lookupTask_setTask_self]
        rfl
      · rw [if_neg hc, lookupTask_setTask_self]
        rfl

/-- C6: every failure raised anywhere in the background download pipeline is
caught by the task-level catch-all and recorded in the registry as a `failed`
entry with a `None` result path and a message carrying the error text
(possibly with the Cookie-hint prefix); `performDownload` is total, so no
exception escapes the background unit of work. -/
theorem C6_background_failure_recorded (reg : Registry) (taskId : String)
    (env : DownloadEnv) (msg : String) (h : downloadPipeline env = .error msg) :
    (getTaskStatus (performDownload reg taskId env) taskId).status = "failed" ∧
    (getTaskStatus (performDownload reg taskId env) taskId).result_path = none ∧
    ((getTaskStatus (performDownload reg taskId env) taskId).message = msg ∨
      (getTaskStatus (performDownload reg taskId env) taskId).message =
        "下载失败，可能需要有效 Cookie: " ++ msg) := by
  unfold performDownload
  rw [h]
  dsimp only
  by_cases hc : (pyInStr "Cookie" msg || pyInStr "登录" msg) = true
  · rw [if_pos hc]
    unfold getTaskStatus
    rw [lookupTask_setTask_self]
    exact ⟨rfl, rfl, Or.inr rfl⟩
  · rw [if_neg hc]
    unfold getTaskStatus
    rw [lookupTask_setTask_self]
    exact ⟨rfl, rfl, Or.inl rfl⟩

/-- Witness for C6: a pipeline whose link resolution raises `boom` yields a
`failed` registry entry with that message and no result path. -/
theorem C6_background_failure_recorded_witness :
    (getTaskStatus (performDownload [] "t"
        ⟨.error "boom", .ok ("", "", ""), .ok "", .ok [], .ok ""⟩) "t").status = "failed" ∧
    (getTaskStatus (performDownload [] "t"
        ⟨.error "boom", .ok ("", "", ""), .ok "", .ok [], .ok ""⟩) "t").result_path = none ∧
    ((getTaskStatus (performDownload [] "t"
        ⟨.error "boom", .ok ("", "", ""), .ok "", .ok [], .ok ""⟩) "t").message = "boom" ∨
      (getTaskStatus (performDownload [] "t"
        ⟨.error "boom", .ok ("", "", ""), .ok "", .ok [], .ok ""⟩) "t").message =
        "下载失败，可能需要有效 Cookie: " ++ "boom") :=
  C6_background_failure_recorded [] "t" _ "boom" rfl

/-- C10: `_parse_duration` applied to the colon-delimited string `"0:-5"`
(integer components, one negative) yields the negative value −5, and
`_map_extracted_to_dict` passes that negative value through into
`media.duration` (the `or 0` guard only replaces `None` and `0`). -/
theorem C10_negative_duration_passthrough :
    parseDuration (.vstr "0:-5") = some (-5) ∧
    (mapExtractedToDict [("duration", .vstr "0:-5")] "u").bind
      (fun out => mediaField out "duration") = some (.vint (-5)) :=
  ⟨by decide, rfl⟩

/-- C3 counterexample: a single-component numeral string contains no colon,
so `_parse_duration` returns `None` for it — not that many seconds as the
claim states (`parse_duration("45") ≠ 45`; the `len(parts) == 1` branch is
dead code). -/
theorem C3_counterexample : ¬ parseDuration (.vstr "45") = some 45 := by decide

/-- C3 as amended: integer input is milliseconds floor-divided by 1000 with
non-positive input yielding 0; a string *containing a colon* is split on `:`
and 2 or 3 integer components are read as {minutes:seconds} /
{hours:minutes:seconds}, any other component count or a non-numeric
component yielding null; a string with no colon — including a
single-component numeral — always yields null (the single-component branch
of the source is unreachable). -/
theorem C3_parse_duration_amended (n : Int) (s : String) (h m sec : Int) :
    (parseDuration (.vint n) = some (if n > 0 then n / 1000 else 0)) ∧
    (containsChar ':' s.data = false → parseDuration (.vstr s) = none) ∧
    (containsChar ':' s.data = true →
      traverseOption parsePyIntL (splitChar ':' s.data) = some [h, m, sec] →
      parseDuration (.vstr s) = some (h * 3600 + m * 60 + sec)) ∧
    (containsChar ':' s.data = true →
      traverseOption parsePyIntL (splitChar ':' s.data) = some [m, sec] →
      parseDuration (.vstr s) = some (m * 60 + sec)) ∧
    (containsChar ':' s.data = true →
      traverseOption parsePyIntL (splitChar ':' s.data) = none →
      parseDuration (.vstr s) = none) ∧
    (∀ parts : List Int, containsChar ':' s.data = true →
      traverseOption parsePyIntL (splitChar ':' s.data) = some parts → 4 ≤ parts.length →
      parseDuration (.vstr s) = none) ∧
    parseDuration (.vstr "01:02:03") = some 3723 ∧
    parseDuration (.vstr "02:03") = some 123 ∧
    parseDuration (.vint 5000) = some 5 ∧
    parseDuration (.vint 0) = some 0 ∧
    parseDuration (.vstr "bad") = none := by
  refine ⟨rfl, ?_, ?_, ?_, ?_, ?_, by decide, by decide, by decide, by decide, by decide⟩
  · intro hc
    simp [parseDuration, hc]
  · intro hc hp
    simp [parseDuration, hc, hp]
  · intro hc hp
    simp [parseDuration, hc, hp]
  · intro hc hp
    simp [parseDuration, hc, hp]
  · intro parts hc hp hlen
    rcases parts with _ | ⟨a, _ | ⟨b, _ | ⟨c, _ | ⟨d, rest⟩⟩⟩⟩
    · simp at hlen
    · simp at hlen
    · simp at hlen
    · simp at hlen
    · simp [parseDuration, hc, hp]

/-- Witness for C3 as amended, at the two-component string `"7:08"`. -/
theorem C3_parse_duration_amended_witness :
    parseDuration (.vstr "7:08") = some 428 :=
  (C3_parse_duration_amended 0 "7:08" 0 7 8).2.2.2.1 (by decide) (by decide)

theorem stripSign_digits {l : List Char} (hne : l ≠ []) (h : allDigits l = true) :
    stripSign l = (false, l) := by
  cases l with
  | nil => exact absurd rfl hne
  | cons c cs =>
    have hc : c.isDigit = true := List.all_eq_true.mp h c (by simp)
    have h1 : (c == '-') = false := digit_char_ne hc (by decide)
    have h2 : (c == '+') = false := digit_char_ne hc (by decide)
    simp [stripSign, h1, h2]

/-- The exact value of a plain digit numeral, as `parsePyFloatL` computes
it. -/
theorem parsePyFloatL_digits {N : List Char} (hne : N ≠ []) (hdig : allDigits N = true) :
    parsePyFloatL N = some ⟨(digitsVal N : Int), 1⟩ := by
  have ht : trimL N = N := trimL_allDigits hdig
  have hl : lowerL N = N := lowerL_allDigits hdig
  have he : splitChar 'e' N = [N] :=
    splitChar_eq_self (containsChar_eq_false_of_digits hdig (by decide))
  have hdot : splitChar '.' N = [N] :=
    splitChar_eq_self (containsChar_eq_false_of_digits hdig (by decide))
  have hsign : stripSign N = (false, N) := stripSign_digits hne hdig
  simp [parsePyFloatL, parseMantissa, ht, hl, he, hdot, hsign, hne, hdig]

theorem bitlenFuel_zero (f : Nat) : bitlenFuel f 0 = 0 := by
  cases f <;> rfl

theorem bitlenFuel_congr : ∀ {f g n : Nat}, n ≤ f → n ≤ g →
    bitlenFuel f n = bitlenFuel g n := by
  intro f
  induction f with
  | zero =>
    intro g n hf _
    have hn : n = 0 := Nat.le_zero.mp hf
    subst hn
    rw [bitlenFuel_zero, bitlenFuel_zero]
  | succ f ih =>
    intro g n hf hg
    cases g with
    | zero =>
      have hn : n = 0 := Nat.le_zero.mp hg
      subst hn
      rw [bitlenFuel_zero, bitlenFuel_zero]
    | succ g =>
      by_cases hn : n = 0
      · subst hn
        rw [bitlenFuel_zero, bitlenFuel_zero]
      · have h1 : n / 2 ≤ f := by omega
        have h2 : n / 2 ≤ g := by omega
        show (if n = 0 then 0 else bitlenFuel f (n / 2) + 1) =
          (if n = 0 then 0 else bitlenFuel g (n / 2) + 1)
        rw [if_neg hn, if_neg hn, ih h1 h2]

theorem bitlenFuel_bounds : ∀ f n, n ≤ f → 1 ≤ n →
    2 ^ (bitlenFuel f n - 1) ≤ n ∧ n < 2 ^ bitlenFuel f n := by
  intro f
  induction f with
  | zero => intro n hf h1; omega
  | succ f ih =>
    intro n hf h1
    show 2 ^ ((if n = 0 then 0 else bitlenFuel f (n / 2) + 1) - 1) ≤ n ∧
      n < 2 ^ (if n = 0 then 0 else bitlenFuel f (n / 2) + 1)
    rw [if_neg (show ¬ n = 0 by omega)]
    by_cases h2 : n = 1
    · subst h2
      rw [show (1 : Nat) / 2 = 0 from rfl, bitlenFuel_zero]
      exact ⟨by norm_num, by norm_num⟩
    · have hd1 : 1 ≤ n / 2 := by omega
      have hdf : n / 2 ≤ f := by omega
      obtain ⟨hl, hh⟩ := ih (n / 2) hdf hd1
      have hb1 : 1 ≤ bitlenFuel f (n / 2) := by
        by_contra hc
        have hz : bitlenFuel f (n / 2) = 0 := by omega
        rw [hz, pow_zero] at hh
        omega
      have e1 : 2 ^ (bitlenFuel f (n / 2) + 1 - 1) = 2 ^ bitlenFuel f (n / 2) := by
        rw [Nat.add_sub_cancel]
      have e2 : (2 : Nat) ^ (bitlenFuel f (n / 2) + 1) = 2 * 2 ^ bitlenFuel f (n / 2) := by
        rw [pow_succ]
        ring
      have e3 : (2 : Nat) ^ bitlenFuel f (n / 2) = 2 * 2 ^ (bitlenFuel f (n / 2) - 1) := by
        conv_lhs => rw [show bitlenFuel f (n / 2) = (bitlenFuel f (n / 2) - 1) + 1 by omega]
        rw [pow_succ]
        ring
      rw [e1, e2]
      omega

theorem bitlen_bounds (n : Nat) (h : 1 ≤ n) :
    2 ^ (bitlen n - 1) ≤ n ∧ n < 2 ^ bitlen n :=
  bitlenFuel_bounds n n le_rfl h

theorem bitlen_pos {n : Nat} (h : 1 ≤ n) : 1 ≤ bitlen n := by
  obtain ⟨_, hh⟩ := bitlen_bounds n h
  by_contra hc
  have hz : bitlen n = 0 := by omega
  rw [hz, pow_zero] at hh
  omega

theorem ratLog2_nat (v : Nat) (h : 1 ≤ v) : ratLog2 v 1 = (bitlen v : Int) - 1 := by
  obtain ⟨hl, _⟩ := bitlen_bounds v h
  have hb1 : 1 ≤ bitlen v := bitlen_pos h
  have hbo : bitlen 1 = 1 := rfl
  unfold ratLog2
  rw [hbo]
  have he0 : (0 : Int) ≤ (bitlen v : Int) - (1 : Nat) := by omega
  rw [if_pos he0]
  have ht : ((bitlen v : Int) - (1 : Nat)).toNat = bitlen v - 1 := by omega
  rw [ht, one_mul, if_pos hl]
  omega

theorem roundPos_nat_small (v : Nat) (h1 : 1 ≤ v) (hb : bitlen v ≤ 53) :
    roundPosMagnitude v 1 = (v * 2 ^ (53 - bitlen v), (bitlen v : Int) - 53) := by
  unfold roundPosMagnitude
  rw [ratLog2_nat v h1]
  have hb1 : 1 ≤ bitlen v := bitlen_pos h1
  have hmax : max ((bitlen v : Int) - 1 - 52) (-1074) = (bitlen v : Int) - 53 := by
    rw [max_eq_left (by omega)]
    omega
  have h2 : (-((bitlen v : Int) - 53)).toNat = 53 - bitlen v := by omega
  have h3 : ((bitlen v : Int) - 53).toNat = 0 := by omega
  simp only [hmax, h2, h3, pow_zero, mul_one, one_mul, Nat.div_one, Nat.mod_one,
    Nat.mul_zero, mul_zero]
  norm_num

theorem pow2Frac_int (v m : Nat) : pow2Frac (v * 2 ^ m) (-(m : Int)) false = ⟨(v : Int), 1⟩ := by
  unfold pow2Frac
  by_cases hm : m = 0
  · subst hm
    norm_num
  · rw [if_neg (by omega)]
    have ht : (-(-(m : Int))).toNat = m := by omega
    rw [ht]
    have hg : Nat.gcd (v * 2 ^ m) (2 ^ m) = 2 ^ m := by
      have hgm : Nat.gcd (v * 2 ^ m) (1 * 2 ^ m) = Nat.gcd v 1 * 2 ^ m :=
        Nat.gcd_mul_right v (2 ^ m) 1
      rw [one_mul, Nat.gcd_one_right, one_mul] at hgm
      exact hgm
    have hp : (0 : Nat) < 2 ^ m := Nat.pos_pow_of_pos m (by norm_num)
    have hdv : v * 2 ^ m / 2 ^ m = v := Nat.mul_div_cancel v hp
    have hds : 2 ^ m / 2 ^ m = 1 := Nat.div_self hp
    simp only [ht, hg, hdv, hds]
    norm_num

set_option maxRecDepth 40000 in
/-- Rounding to binary64 is exact on integers of magnitude at most `2^53`. -/
theorem roundDouble_int_exact (v : Nat) (h : v ≤ 2 ^ 53) :
    roundDouble ⟨(v : Int), 1⟩ = .finite ⟨(v : Int), 1⟩ := by
  by_cases h0 : v = 0
  · subst h0
    decide
  · have h1 : 1 ≤ v := by omega
    by_cases h54 : bitlen v ≤ 53
    · unfold roundDouble
      have hnum : ¬ ((v : Int) = 0) := by omega
      rw [if_neg hnum]
      have hneg : ¬ ((v : Int) < 0) := by omega
      have habs : ((v : Int)).natAbs = v := Int.natAbs_ofNat v
      rw [habs, roundPos_nat_small v h1 h54]
      dsimp only
      have hover : ¬ (0 ≤ (bitlen v : Int) - 53 ∧
          2 ^ 1024 ≤ v * 2 ^ (53 - bitlen v) * 2 ^ ((bitlen v : Int) - 53).toNat) := by
        rintro ⟨hc1, hc2⟩
        have hbe : bitlen v = 53 := by
          have := bitlen_pos h1
          omega
        rw [hbe] at hc2
        norm_num at hc2
        have hlt : v < 2 ^ 1024 :=
          lt_of_le_of_lt h (by norm_num)
        omega
      rw [if_neg hover]
      have hd : decide ((v : Int) < 0) = false := decide_eq_false hneg
      rw [hd]
      have hexp : (bitlen v : Int) - 53 = -((53 - bitlen v : Nat) : Int) := by
        have := bitlen_pos h1
        omega
      rw [hexp, pow2Frac_int]
    · have hbl : 54 ≤ bitlen v := by omega
      obtain ⟨hlo, _⟩ := bitlen_bounds v h1
      have hpow : 2 ^ 53 ≤ 2 ^ (bitlen v - 1) :=
        Nat.pow_le_pow_right (by norm_num) (by omega)
      have hv : v = 2 ^ 53 := by omega
      subst hv
      decide

set_option maxRecDepth 40000 in
/-- C4 counterexample: `_parse_count_with_unit` computes
`int(float(num_part) * multiplier)` in binary64 arithmetic, so the digit
numeral `"9007199254740993"` (2⁵³ + 1, not representable) yields
9007199254740992 rather than `int(N)` = 9007199254740993; and a 310-digit
numeral overflows `float()` to infinity, making `int()` raise an uncaught
`OverflowError` instead of returning a value at all. -/
theorem C4_counterexample :
    parseCountWithUnitFloat (.vstr "9007199254740993") = .val 9007199254740992 ∧
    ((digitsVal "9007199254740993".data : Nat) : Int) = 9007199254740993 ∧
    (9007199254740992 : Int) ≠ 9007199254740993 ∧
    parseCountWithUnitFloat (.vstr (String.mk ('1' :: List.replicate 309 '0'))) =
      .overflowError := by
  exact ⟨by decide, by decide, by decide, by decide⟩

set_option maxRecDepth 40000 in
/-- C4 as amended: `_parse_count_with_unit` maps every plain digit numeral
string whose value is at most 2⁵³ to its integer value (beyond 2⁵³ binary64
rounding applies, and numerals overflowing the double range raise an
uncaught `OverflowError`); it handles the unit suffixes (`"1.2万"` ↦ 12000,
`"5亿"` ↦ 500000000), returns `None` on an unparseable string (`"abc"`),
passes non-negative integer input through unchanged, and returns `None` —
never zero — for negative integer input. -/
theorem C4_parse_count_amended (N : String) (n : Int) :
    (N.data ≠ [] → allDigits N.data = true → digitsVal N.data ≤ 2 ^ 53 →
      parseCountWithUnitFloat (.vstr N) = .val ((digitsVal N.data : Int))) ∧
    parseCountWithUnitFloat (.vstr "1.2万") = .val 12000 ∧
    parseCountWithUnitFloat (.vstr "5亿") = .val 500000000 ∧
    parseCountWithUnitFloat (.vstr "abc") = .retNone ∧
    (n < 0 → parseCountWithUnitFloat (.vint n) = .retNone) ∧
    (0 ≤ n → parseCountWithUnitFloat (.vint n) = .val n) := by
  refine ⟨?_, by decide, by decide, by decide, ?_, ?_⟩
  · intro hne hdig hle
    have ht : trimL N.data = N.data := trimL_allDigits hdig
    have hl : lowerL N.data = N.data := lowerL_allDigits hdig
    have hwan : containsChar '万' N.data = false :=
      containsChar_eq_false_of_digits hdig (by decide)
    have hw : containsChar 'w' N.data = false :=
      containsChar_eq_false_of_digits hdig (by decide)
    have hyi : containsChar '亿' N.data = false :=
      containsChar_eq_false_of_digits hdig (by decide)
    have hb : containsChar 'b' N.data = false :=
      containsChar_eq_false_of_digits hdig (by decide)
    have hpf := parsePyFloatL_digits hne hdig
    have hrd := roundDouble_int_exact (digitsVal N.data) hle
    simp [parseCountWithUnitFloat, fpMulPos, ht, hl, hwan, hw, hyi, hb, hpf, hrd]
  · intro hneg
    have hn : ¬ (n ≥ 0) := by omega
    simp [parseCountWithUnitFloat, hn]
  · intro hpos
    simp [parseCountWithUnitFloat, hpos]

/-- Witness for C4 as amended, at the digit string `"1234"` (value ≤ 2⁵³),
the negative integer −3 and the non-negative integer 7. -/
theorem C4_parse_count_amended_witness :
    parseCountWithUnitFloat (.vstr "1234") = .val 1234 ∧
    parseCountWithUnitFloat (.vint (-3)) = .retNone ∧
    parseCountWithUnitFloat (.vint 7) = .val 7 :=
  ⟨(C4_parse_count_amended "1234" 0).1 (by decide) (by decide) (by decide),
   (C4_parse_count_amended "" (-3)).2.2.2.2.1 (by decide),
   (C4_parse_count_amended "" 7).2.2.2.2.2 (by decide)⟩

/-- C9: in `_parse_count_with_unit` the unit markers are detected anywhere in
the (stripped, lowercased) string, the ten-thousand markers `万`/`w` take
precedence over `亿`/`b`, all occurrences of the matched marker pair are
removed before numeric parsing (`"w1.2"` and `"1w.2w"` both parse to 12000),
and a string containing `b` but neither `万` nor `w` takes the
hundred-million branch (`"5b"` ↦ 500000000); with both marker families
present the multiplier is still 10000 and the leftover `亿`/`b` makes the
numeral unparseable (`"1.2万亿"` ↦ null). -/
theorem C9_unit_marker_precedence (s : String) :
    ((containsChar '万' (lowerL (trimL s.data)) ||
        containsChar 'w' (lowerL (trimL s.data))) = true →
      parseCountWithUnit (.vstr s) =
        (parsePyFloatL (trimL (removeChar 'w'
          (removeChar '万' (lowerL (trimL s.data)))))).map
            (fun q => truncMul q 10000)) ∧
    ((containsChar '万' (lowerL (trimL s.data)) ||
        containsChar 'w' (lowerL (trimL s.data))) = false →
      (containsChar '亿' (lowerL (trimL s.data)) ||
        containsChar 'b' (lowerL (trimL s.data))) = true →
      parseCountWithUnit (.vstr s) =
        (parsePyFloatL (trimL (removeChar 'b'
          (removeChar '亿' (lowerL (trimL s.data)))))).map
            (fun q => truncMul q 100000000)) ∧
    parseCountWithUnit (.vstr "w1.2") = some 12000 ∧
    parseCountWithUnit (.vstr "1w.2w") = some 12000 ∧
    parseCountWithUnit (.vstr "5b") = some 500000000 ∧
    parseCountWithUnit (.vstr "1.2万亿") = none := by
  refine ⟨?_, ?_, by decide, by decide, by decide, by decide⟩
  · intro hm
    unfold parseCountWithUnit
    dsimp only
    rw [if_pos hm]
    cases hpf : parsePyFloatL (trimL (removeChar 'w'
        (removeChar '万' (lowerL (trimL s.data))))) with
    | none => simp [hpf]
    | some q => simp [hpf]
  · intro hm hy
    unfold parseCountWithUnit
    dsimp only
    rw [if_neg (by simp [hm]), if_pos hy]
    cases hpf : parsePyFloatL (trimL (removeChar 'b'
        (removeChar '亿' (lowerL (trimL s.data))))) with
    | none => simp [hpf]
    | some q => simp [hpf]

/-- Witness for C9 at `"3万"` (ten-thousand branch) and `"4亿"`
(hundred-million branch). -/
theorem C9_unit_marker_precedence_witness :
    parseCountWithUnit (.vstr "3万") =
      (parsePyFloatL (trimL (removeChar 'w'
        (removeChar '万' (lowerL (trimL "3万".data)))))).map
          (fun q => truncMul q 10000) ∧
    parseCountWithUnit (.vstr "4亿") =
      (parsePyFloatL (trimL (removeChar 'b'
        (removeChar '亿' (lowerL (trimL "4亿".data)))))).map
          (fun q => truncMul q 100000000) :=
  ⟨(C9_unit_marker_precedence "3万").1 (by decide),
   (C9_unit_marker_precedence "4亿").2.1 (by decide) (by decide)⟩

/-- C1 counterexample: for a non-empty extraction record with no `photoType`
(e.g. only a `detailID`), the mapped output has `media.video_url = ""` *and*
`media.image_urls = []` — both empty, so it is not the case that exactly one
of them is non-empty. -/
theorem C1_counterexample :
    ((mapExtractedToDict [("detailID", .vstr "x")] "u").bind
      (fun o => mediaField o "video_url")).map PyVal.truthy = some false ∧
    ((mapExtractedToDict [("detailID", .vstr "x")] "u").bind
      (fun o => mediaField o "image_urls")).map PyVal.truthy = some false :=
  ⟨rfl, rfl⟩

/-- C1 as amended: at most one of `media.video_url` and `media.image_urls`
is non-empty, and which one is populated is determined by `photoType`
together with the `download` value: `photoType == "图片"` with truthy
downloads populates `image_urls` (video empty), `photoType == "视频"` with
truthy downloads populates `video_url` with `download[0]` (images empty),
and every other combination leaves both empty. -/
theorem C1_media_exclusivity_amended (info : PyDict) (url : String) (out : PyVal)
    (hne : info ≠ []) (hmap : mapExtractedToDict info url = some out) :
    (((pyGet info "photoType" .vnone).eqStr "图片" &&
        (pyGet info "download" (.vlist [])).truthy) = true →
      mediaField out "image_urls" = some (pyGet info "download" (.vlist [])) ∧
      mediaField out "video_url" = some (.vstr "")) ∧
    (((pyGet info "photoType" .vnone).eqStr "图片" &&
        (pyGet info "download" (.vlist [])).truthy) = false →
      ((pyGet info "photoType" .vnone).eqStr "视频" &&
        (pyGet info "download" (.vlist [])).truthy) = true →
      mediaField out "image_urls" = some (.vlist []) ∧
      mediaField out "video_url" = (pyGet info "download" (.vlist [])).index0) ∧
    (((pyGet info "photoType" .vnone).eqStr "图片" &&
        (pyGet info "download" (.vlist [])).truthy) = false →
      ((pyGet info "photoType" .vnone).eqStr "视频" &&
        (pyGet info "download" (.vlist [])).truthy) = false →
      mediaField out "image_urls" = some (.vlist []) ∧
      mediaField out "video_url" = some (.vstr "")) ∧
    ¬((mediaField out "video_url").map PyVal.truthy = some true ∧
      (mediaField out "image_urls").map PyVal.truthy = some true) := by
  have hie : info.isEmpty = false := by
    cases info with
    | nil => exact absurd rfl hne
    | cons a as => rfl
  unfold mapExtractedToDict at hmap
  rw [if_neg (by simp [hie])] at hmap
  dsimp only at hmap
  by_cases h1 : ((pyGet info "photoType" .vnone).eqStr "图片" &&
      (pyGet info "download" (.vlist [])).truthy) = true
  · rw [if_pos h1] at hmap
    have hout := Option.some.inj hmap
    subst hout
    refine ⟨fun _ => ⟨rfl, rfl⟩, fun hf _ => absurd h1 (by simp [hf]),
      fun hf _ => absurd h1 (by simp [hf]), ?_⟩
    rintro ⟨hv, _⟩
    exact Bool.noConfusion (Option.some.inj (hv : (some false : Option Bool) = some true))
  · rw [if_neg h1] at hmap
    by_cases h2 : ((pyGet info "photoType" .vnone).eqStr "视频" &&
        (pyGet info "download" (.vlist [])).truthy) = true
    · rw [if_pos h2] at hmap
      cases hidx : (pyGet info "download" (.vlist [])).index0 with
      | none =>
        rw [hidx] at hmap
        simp at hmap
      | some v =>
        rw [hidx] at hmap
        have hout := Option.some.inj hmap
        subst hout
        refine ⟨fun ht => absurd ht (by simp [h1]), fun _ _ => ⟨rfl, by exact rfl⟩,
          fun _ hf => absurd h2 (by simp [hf]), ?_⟩
        rintro ⟨_, hi⟩
        exact Bool.noConfusion (Option.some.inj (hi : (some false : Option Bool) = some true))
    · rw [if_neg h2] at hmap
      have hout := Option.some.inj hmap
      subst hout
      refine ⟨fun ht => absurd ht (by simp [h1]), fun _ ht => absurd ht (by simp [h2]),
        fun _ _ => ⟨rfl, rfl⟩, ?_⟩
      rintro ⟨hv, _⟩
      exact Bool.noConfusion (Option.some.inj (hv : (some false : Option Bool) = some true))

/-- Witness for C1 as amended: a gallery record (`photoType = "图片"`, two
download URLs) populates `image_urls` and leaves `video_url` empty. -/
theorem C1_media_exclusivity_amended_witness :
    mediaField
        ((mapExtractedToDict
          [("photoType", .vstr "图片"),
           ("download", .vlist [.vstr "a", .vstr "b"])] "u").getD .vnone)
        "image_urls" = some (.vlist [.vstr "a", .vstr "b"]) ∧
    mediaField
        ((mapExtractedToDict
          [("photoType", .vstr "图片"),
           ("download", .vlist [.vstr "a", .vstr "b"])] "u").getD .vnone)
        "video_url" = some (.vstr "") :=
  (C1_media_exclusivity_amended
    [("photoType", .vstr "图片"), ("download", .vlist [.vstr "a", .vstr "b"])]
    "u" _ (by simp) rfl).1 (by decide)

/-- The defaults of the mapped output: a record with no usable field maps to
the fully-defaulted shape (empty strings, zeros, empty lists, nulls). -/
theorem mapExtracted_defaults :
    mapExtractedToDict [("photoType", PyVal.vnone)] "u2" = some (.vdict
      [("platform", .vstr "kuaishou"),
       ("video_id", .vstr ""),
       ("original_url", .vstr "u2"),
       ("title", .vstr ""),
       ("description", .vstr ""),
       ("content", .vstr ""),
       ("tags", .vlist []),
       ("type", .vstr "video"),
       ("author", .vdict
         [("id", .vstr ""), ("sec_uid", .vstr ""), ("nickname", .vstr ""),
          ("avatar", .vstr ""), ("signature", .vstr ""),
          ("verified", .vbool false), ("follower_count", .vint 0),
          ("following_count", .vint 0), ("region", .vstr "")]),
       ("statistics", .vdict
         [("like_count", .vint 0), ("comment_count", .vint 0),
          ("share_count", .vint 0), ("collect_count", .vint 0),
          ("play_count", .vint 0)]),
       ("media", .vdict
         [("cover_url", .vstr ""), ("video_url", .vstr ""),
          ("image_urls", .vlist []), ("duration", .vint 0),
          ("width", .vint 0), ("height", .vint 0), ("quality", .vnone)]),
       ("publish_time", .vnone),
       ("update_time", .vnone)]) := rfl

/-- C8: every failure of the synchronous metadata operation is surfaced with
a distinguishable category — 400 for resolution/extraction `ValueError`s,
401 for auth-flavored failures (message mentioning `Cookie`/`登录`), 503 for
a fetch that produces no page content, 500 for unclassified errors — and in
particular a fetch failure surfaces the 503 fetch-category error, never a
raw unclassified exception. -/
theorem C8_error_categories (env : MetaEnv) (url : String) :
    ((∃ d, getVideoMetadata env url = .ok d) ∨
      (∃ c det, getVideoMetadata env url = .error (c, det) ∧
        (c = 400 ∨ c = 401 ∨ c = 500 ∨ c = 503))) ∧
    (∀ resolved params html,
      env.examinerRun = .ok resolved → resolved ≠ [] →
      env.extractParams = .ok params → params.2.2.data ≠ [] →
      env.detailPageRun = .ok html → html.data = [] →
      getVideoMetadata env url =
        .error (503, "获取快手页面内容失败，请检查网络或 Cookie")) ∧
    (∀ m, env.examinerRun = .error (.valueError m) →
      getVideoMetadata env url =
        .error (400, "处理输入链接或解析数据时发生值错误，请检查链接格式或内容。")) ∧
    (∀ m, env.examinerRun = .error (.other m) →
      (pyInStr "Cookie" m || pyInStr "登录" m) = true →
      getVideoMetadata env url = .error (401, "提取失败，可能需要有效 Cookie: " ++ m)) ∧
    (∀ m, env.examinerRun = .error (.other m) →
      (pyInStr "Cookie" m || pyInStr "登录" m) = false →
      getVideoMetadata env url = .error (500, "提取元数据时发生内部错误: " ++ m)) := by
  obtain ⟨er, ep, dr, hr⟩ := env
  refine ⟨?_, ?_, ?_, ?_, ?_⟩
  · cases er with
    | error e =>
      cases e with
      | valueError m =>
        exact .inr ⟨400, "处理输入链接或解析数据时发生值错误，请检查链接格式或内容。",
          rfl, .inl rfl⟩
      | other m =>
        by_cases hc : (pyInStr "Cookie" m || pyInStr "登录" m) = true
        · refine .inr ⟨401, "提取失败，可能需要有效 Cookie: " ++ m, ?_, .inr (.inl rfl)⟩
          simp [getVideoMetadata, getVideoMetadataBody, liftStep, hc]
        · refine .inr ⟨500, "提取元数据时发生内部错误: " ++ m, ?_, .inr (.inr (.inl rfl))⟩
          simp only [Bool.not_eq_true] at hc
          simp [getVideoMetadata, getVideoMetadataBody, liftStep, hc]
    | ok resolved =>
      cases hres : resolved.isEmpty with
      | true =>
        exact .inr ⟨400, "处理输入链接或解析数据时发生值错误，请检查链接格式或内容。",
          by simp [getVideoMetadata, getVideoMetadataBody, liftStep, hres], .inl rfl⟩
      | false =>
        cases ep with
        | error e =>
          cases e with
          | valueError m =>
            exact .inr ⟨400, "处理输入链接或解析数据时发生值错误，请检查链接格式或内容。",
              by simp [getVideoMetadata, getVideoMetadataBody, liftStep, hres], .inl rfl⟩
          | other m =>
            by_cases hc : (pyInStr "Cookie" m || pyInStr "登录" m) = true
            · refine .inr ⟨401, "提取失败，可能需要有效 Cookie: " ++ m, ?_, .inr (.inl rfl)⟩
              simp [getVideoMetadata, getVideoMetadataBody, liftStep, hres, hc]
            · refine .inr ⟨500, "提取元数据时发生内部错误: " ++ m, ?_,
                .inr (.inr (.inl rfl))⟩
              simp only [Bool.not_eq_true] at hc
              simp [getVideoMetadata, getVideoMetadataBody, liftStep, hres, hc]
        | ok params =>
          obtain ⟨w, u, d⟩ := params
          cases hd : d.data.isEmpty with
          | true =>
            exact .inr ⟨400, "处理输入链接或解析数据时发生值错误，请检查链接格式或内容。",
              by simp [getVideoMetadata, getVideoMetadataBody, liftStep, hres, hd],
              .inl rfl⟩
          | false =>
            cases dr with
            | error e =>
              cases e with
              | valueError m =>
                exact .inr ⟨400,
                  "处理输入链接或解析数据时发生值错误，请检查链接格式或内容。",
                  by simp [getVideoMetadata, getVideoMetadataBody, liftStep, hres, hd],
                  .inl rfl⟩
              | other m =>
                by_cases hc : (pyInStr "Cookie" m || pyInStr "登录" m) = true
                · refine .inr ⟨401, "提取失败，可能需要有效 Cookie: " ++ m, ?_,
                    .inr (.inl rfl)⟩
                  simp [getVideoMetadata, getVideoMetadataBody, liftStep, hres, hd, hc]
                · refine .inr ⟨500, "提取元数据时发生内部错误: " ++ m, ?_,
                    .inr (.inr (.inl rfl))⟩
                  simp only [Bool.not_eq_true] at hc
                  simp [getVideoMetadata, getVideoMetadataBody, liftStep, hres, hd, hc]
            | ok html =>
              cases hh : html.data.isEmpty with
              | true =>
                exact .inr ⟨503, "获取快手页面内容失败，请检查网络或 Cookie",
                  by simp [getVideoMetadata, getVideoMetadataBody, liftStep, hres, hd, hh],
                  .inr (.inr (.inr rfl))⟩
              | false =>
                cases hr with
                | error e =>
                  cases e with
                  | valueError m =>
                    exact .inr ⟨400,
                      "处理输入链接或解析数据时发生值错误，请检查链接格式或内容。",
                      by simp [getVideoMetadata, getVideoMetadataBody, liftStep,
                        hres, hd, hh], .inl rfl⟩
                  | other m =>
                    by_cases hc : (pyInStr "Cookie" m || pyInStr "登录" m) = true
                    · refine .inr ⟨401, "提取失败，可能需要有效 Cookie: " ++ m, ?_,
                        .inr (.inl rfl)⟩
                      simp [getVideoMetadata, getVideoMetadataBody, liftStep,
                        hres, hd, hh, hc]
                    · refine .inr ⟨500, "提取元数据时发生内部错误: " ++ m, ?_,
                        .inr (.inr (.inl rfl))⟩
                      simp only [Bool.not_eq_true] at hc
                      simp [getVideoMetadata, getVideoMetadataBody, liftStep,
                        hres, hd, hh, hc]
                | ok info =>
                  cases hinfo : info.isEmpty with
                  | true =>
                    exact .inr ⟨400,
                      "处理输入链接或解析数据时发生值错误，请检查链接格式或内容。",
                      by simp [getVideoMetadata, getVideoMetadataBody, liftStep,
                        hres, hd, hh, hinfo], .inl rfl⟩
                  | false =>
                    cases hm : mapExtractedToDict info url with
                    | some dd =>
                      exact .inl ⟨dd,
                        by simp [getVideoMetadata, getVideoMetadataBody, liftStep,
                          hres, hd, hh, hinfo, hm]⟩
                    | none =>
                      refine .inr ⟨500,
                        "提取元数据时发生内部错误: " ++ "object is not subscriptable",
                        ?_, .inr (.inr (.inl rfl))⟩
                      simp [getVideoMetadata, getVideoMetadataBody, liftStep,
                        hres, hd, hh, hinfo, hm, pyInStr]
                      exact ⟨by decide, by decide⟩
  · intro resolved params html h1 h2 h3 h4 h5 h6
    obtain ⟨w, u, d⟩ := params
    subst h1 h3 h5
    have hres : resolved.isEmpty = false := by
      cases resolved with
      | nil => exact absurd rfl h2
      | cons a as => rfl
    have hd : d.data.isEmpty = false := by
      cases hdd : d.data with
      | nil => exact absurd hdd h4
      | cons a as => rfl
    have hh : html.data.isEmpty = true := by
      rw [h6]; rfl
    simp [getVideoMetadata, getVideoMetadataBody, liftStep, hres, hd, hh]
  · intro m h1
    subst h1
    rfl
  · intro m h1 hc
    subst h1
    simp [getVideoMetadata, getVideoMetadataBody, liftStep, hc]
  · intro m h1 hc
    subst h1
    simp [getVideoMetadata, getVideoMetadataBody, liftStep, hc]

/-- Witness for C8: with successful resolution and parameter extraction but a
fetch that yields empty page content, the metadata operation fails with the
503 fetch-category error. -/
theorem C8_error_categories_witness :
    getVideoMetadata ⟨.ok ["r"], .ok ("w", "u", "d"), .ok "", .ok []⟩ "url" =
      .error (503, "获取快手页面内容失败，请检查网络或 Cookie") :=
  (C8_error_categories ⟨.ok ["r"], .ok ("w", "u", "d"), .ok "", .ok []⟩ "url").2.1
    ["r"] ("w", "u", "d") "" rfl (by simp) rfl (by simp) rfl rfl

end KsApi
